import Mathlib

set_option maxHeartbeats 1000000
set_option maxRecDepth 4000

/-!
Verification of the preview-deployment bot in src/handler.js.

The script is a single-shot orchestrator: it parses an event payload,
filters by repository, routes on the action, and then performs a sequence
of external side effects (git clone, build commands, file copies, git
commit and push, scratch-directory removal).  The embedding below models
the external collaborators (git, build tools, the filesystem) as an
oracle (the World structure) that answers each command with success or a
failure message, exactly as the script observes them through execSync and
the fs module.  The orchestrator itself is translated statement by
statement into pure functions that return the list of attempted side
effects together with the process outcome.
-/

namespace PreviewBot

/-- Prefix test on character lists. -/
def isPrefixL : List Char → List Char → Bool
  | [], _ => true
  | _ :: _, [] => false
  | a :: as, b :: bs => a == b && isPrefixL as bs

/-- Substring occurrence test on character lists. -/
def includesL : List Char → List Char → Bool
  | hay, pat =>
    match hay with
    | [] => isPrefixL pat []
    | _ :: rest => isPrefixL pat hay || includesL rest pat

/-- JS String.prototype.includes: true iff the pattern occurs somewhere
in the string.  handler.js uses it to classify build candidates
(line 78) and to recognise the benign commit failure (lines 157
and 201). -/
def jsIncludes (s pat : String) : Bool :=
  includesL s.data pat.data

/-- JS String.prototype.endsWith, used at line 229 on entry names. -/
def endsWithL (s suffix : String) : Bool :=
  isPrefixL suffix.data.reverse s.data.reverse

/-- JS template interpolation of a possibly undefined value: undefined
prints as the string undefined. -/
def shaString : Option String → String
  | some s => s
  | none => "undefined"

/-- JS String.prototype.substring with arguments 0 and 7 (line 153). -/
def substring7 (s : String) : String := String.mk (s.data.take 7)

/- ## Event payload and configuration (handler.js lines 5-33)

The three top-level payload fields are modelled as Option because the
validation at line 21 tests their presence.  pull_request.head is also
Option (line 28 reads head.sha and throws when head is undefined), and
head.sha is Option because a present head object may itself lack the sha
property, in which case the read yields undefined without throwing.
The remaining fields read at lines 26-32 (repository.name, full_name,
owner.login, pull_request.number, config.previewRepository) are modelled
as always present. -/

structure Owner where
  login : String

structure Repository where
  name : String
  full_name : String
  owner : Owner

structure Head where
  sha : Option String

structure PullRequest where
  number : Nat
  head : Option Head

structure EventPayload where
  action : Option String
  repository : Option Repository
  pull_request : Option PullRequest

structure Config where
  monitoredRepositories : List String
  previewOwner : String
  previewName : String

/-- PreviewPath (line 33): repoName/prNumber. -/
def previewPathStr (repoName : String) (prNumber : Nat) : String :=
  repoName ++ "/" ++ toString prNumber

/- ## Filesystem model for the artifact search (lines 99-117, 221-235) -/

mutual
/-- A directory entry of the source working tree: a plain file or a
directory with a child listing. -/
inductive Entry : Type
  | file (name : String)
  | dir (name : String) (children : EntryList)
/-- An ordered directory listing (the order fs.readdirSync returns). -/
inductive EntryList : Type
  | nil
  | cons (head : Entry) (tail : EntryList)
end

def Entry.name : Entry → String
  | .file n => n
  | .dir n _ => n

/-- Build a listing from a plain list, for concrete trees. -/
def entryList : List Entry → EntryList
  | [] => .nil
  | e :: es => .cons e (entryList es)

/-- Node path.join of a directory string and an entry name, as used at
line 226; join of the dot directory with a name is the bare name. -/
def joinP (dir name : String) : String :=
  if dir = "." then name else dir ++ "/" ++ name

mutual
/-- One loop iteration of findHtmlFiles (lines 225-232): a directory
entry expands recursively in place, a plain file contributes its joined
path when its name ends in .html. -/
def findHtmlEntry (dirPath : String) : Entry → List String
  | .file n => if endsWithL n (".html") then [joinP dirPath n] else []
  | .dir n cs => findHtmlFiles (joinP dirPath n) cs
/-- findHtmlFiles (lines 221-235): walk a directory listing in order,
collecting the html file paths. -/
def findHtmlFiles (dirPath : String) : EntryList → List String
  | .nil => []
  | .cons e rest => findHtmlEntry dirPath e ++ findHtmlFiles dirPath rest
end

/-- First entry of a listing with the given name. -/
def EntryList.findByName : EntryList → String → Option Entry
  | .nil, _ => none
  | .cons e rest, c => if e.name == c then some e else rest.findByName c

/-- Result of resolving a relative path inside the source tree. -/
inductive LookupRes : Type
  | absent
  | isFile
  | isDir (children : EntryList)

/-- Resolve a list of path components against a directory listing.
Traversing through a plain file, or a missing name, means the path does
not exist (fs.existsSync is false for both). -/
def lookupPath : List String → EntryList → LookupRes
  | [], es => .isDir es
  | c :: rest, es =>
    match es.findByName c with
    | none => .absent
    | some (Entry.file _) =>
        match rest with
        | [] => .isFile
        | _ :: _ => .absent
    | some (Entry.dir _ cs) => lookupPath rest cs

/-- Split a string on slash characters. -/
def splitSlashAux : List Char → List Char → List String
  | acc, [] => [String.mk acc.reverse]
  | acc, c :: cs =>
      if c == '/' then String.mk acc.reverse :: splitSlashAux [] cs
      else splitSlashAux (c :: acc) cs

/-- Split a candidate directory string into path components; the dot
directory denotes the working-tree root itself. -/
def splitPath (s : String) : List String :=
  if s = "." then [] else splitSlashAux [] s.data

/-- The fixed candidate directory list of line 100. -/
def htmlDirs : List String := ["dist", "output", "docs/html", "build", "html", "."]

/-- The artifact-location loop of lines 103-112: scan the candidates in
order; skip a candidate that does not exist; a candidate that exists as a
plain file makes fs.readdirSync throw (modelled as error); the first
candidate whose recursive walk yields at least one html file supplies the
final result and stops the scan.  If no candidate yields a file the
result is the empty list. -/
def locateArtifacts (tree : EntryList) : List String → Except Unit (List String)
  | [] => .ok []
  | d :: rest =>
    match lookupPath (splitPath d) tree with
    | .absent => locateArtifacts tree rest
    | .isFile => .error ()
    | .isDir es =>
      if (findHtmlFiles d es).length > 0 then .ok (findHtmlFiles d es)
      else locateArtifacts tree rest

/- ## Node path arithmetic (lines 127-142)

Absolute paths are lists of components below the filesystem root.  The
copy loop mixes path.relative, path.resolve (implicitly, through the
current working directory) and path.join; these are modelled component
wise with the Node normalisation rules: a dot component is dropped and a
dotdot component removes the last component (clamping at the root). -/

abbrev AbsPath := List String

/-- Append relative components to an absolute path, normalising dot and
dotdot components as Node path.join and path.resolve do. -/
def normJoin (base : AbsPath) (rel : List String) : AbsPath :=
  rel.foldl (fun acc c => if c = "." then acc else if c = ".." then acc.dropLast else acc ++ [c]) base

/-- Drop the longest common prefix of two component lists. -/
def dropCommon : List String → List String → List String × List String
  | a :: as, b :: bs => if a = b then dropCommon as bs else (a :: as, b :: bs)
  | as, bs => (as, bs)

/-- Node path.relative on two absolute paths: climb out of the
non-common part of the first and descend into the non-common part of the
second. -/
def relSegs (fromP toP : AbsPath) : List String :=
  let p := dropCommon fromP toP
  List.replicate p.1.length (String.mk ['.', '.']) ++ p.2

/-- The source operand of fs.copyFileSync at line 142: the artifact path
(a string relative to the source working tree, collected while the
current directory was the source tree) resolved against the current
directory, which line 123 changed to the preview working tree. -/
def copySrcResolved (previewDir : AbsPath) (file : String) : AbsPath :=
  normJoin previewDir (splitPath file)

/-- The target path computed by lines 134-135: relativePath is
path.relative(tempDir, file) with the current directory equal to the
preview working tree, and targetFile joins it onto targetDir. -/
def copyTargetFile (tempDir previewDir targetDir : AbsPath) (file : String) : AbsPath :=
  normJoin targetDir (relSegs tempDir (copySrcResolved previewDir file))

/-- The published location the specification describes for an artifact:
PreviewPath inside the preview working tree, followed by the path of the
artifact relative to the source working-tree root (directory structure
mirrored).  Stated from the specification wording for comparison with
copyTargetFile, which is translated from the code. -/
def specTargetFile (previewDir : AbsPath) (previewPath : List String) (relFromSourceRoot : List String) : AbsPath :=
  previewDir ++ previewPath ++ relFromSourceRoot

/- ## The external-collaborator oracle and the effect trace

Every execSync call site of handler.js is one Cmd constructor; the World
oracle answers each command with success or a failure message (execSync
throws on non-zero exit, and the catch handlers read e.message).  The
World also answers the fs queries the script makes (existsSync on build
scripts and directories, the source tree used by the artifact walk, and
whether each copyFileSync succeeds).  Date.now based scratch names are
the three id fields. -/

inductive Cmd : Type
  | gitCloneSource (fullName : String)
  | gitCheckout (sha : String)
  | build (script : String)
  | gitClonePreview (owner name : String)
  | gitConfigName
  | gitConfigEmail
  | gitAdd (p : String)
  | gitAddAll
  | gitCommit (msg : String)
  | gitPush
  | rmrf (paths : List AbsPath)
deriving DecidableEq

inductive CmdResult : Type
  | ok
  | fail (msg : String)
deriving DecidableEq

inductive Effect : Type
  | exec (c : Cmd)
  | mkdirRec (p : AbsPath)
  | copyFile (src tgt : AbsPath)
deriving DecidableEq

/-- Process outcome: an explicit process.exit or normal end of script
(exited), or an uncaught top-level exception (thrown), which node
terminates with exit code 1. -/
inductive Outcome : Type
  | exited (code : Nat)
  | thrown
deriving DecidableEq

def Outcome.exitCode : Outcome → Nat
  | .exited c => c
  | .thrown => 1

structure World where
  run : Cmd → CmdResult
  scriptExists : String → Bool
  sourceTree : EntryList
  targetDirExists : Bool
  dirExists : AbsPath → Bool
  copyOk : AbsPath → Bool
  previewPathExists : Bool
  tmpId : String
  previewId : String
  cleanupId : String

def tempDirOf (w : World) : AbsPath := ["tmp", "preview-" ++ w.tmpId]

def previewDirOf (w : World) : AbsPath := ["tmp", "preview-repo-" ++ w.previewId]

def cleanupDirOf (w : World) : AbsPath := ["tmp", "preview-repo-cleanup-" ++ w.cleanupId]

/- ## Build discovery (lines 64-97) -/

/-- The fixed candidate strategy list of lines 66-74. -/
def buildScripts : List String :=
  ["build-docs.sh", "generate-docs.sh", "build.sh",
   "npm run build-docs", "npm run generate-docs",
   "python generate_docs.py", "./generate.sh"]

/-- Line 78: a candidate containing npm run or python is a command-style
strategy; the rest are script paths. -/
def stratIsCmd (s : String) : Bool :=
  jsIncludes s ("npm run") || jsIncludes s ("python")

inductive BuildRes : Type
  | executed
  | exhausted
  | threw
deriving DecidableEq

/-- The loop of lines 76-93.  A failing command-style candidate is
caught (lines 79-85) and the loop continues; a script-path candidate is
attempted only when the file exists, and its failure is not caught, so
it escapes to the handler-level catch (threw).  Success breaks the loop;
an empty remainder means no strategy executed. -/
def runBuildLoop (w : World) : List String → List Effect × BuildRes
  | [] => ([], .exhausted)
  | s :: rest =>
    if stratIsCmd s then
      match w.run (.build s) with
      | .ok => ([.exec (.build s)], .executed)
      | .fail _ =>
          (Effect.exec (.build s) :: (runBuildLoop w rest).1, (runBuildLoop w rest).2)
    else if w.scriptExists s then
      match w.run (.build s) with
      | .ok => ([.exec (.build s)], .executed)
      | .fail _ => ([.exec (.build s)], .threw)
    else runBuildLoop w rest

/- ## The copy loop (lines 132-144) -/

/-- One pass of the loop at lines 133-144 over the located artifact
list: compute the target path, create the missing parent directory, and
copy.  A failing copyFileSync (for instance because the source path,
resolved against the preview working tree, does not exist) throws and
aborts the loop (second component false). -/
def runCopyLoop (w : World) (tempDir previewDir targetDir : AbsPath) : List String → List Effect × Bool
  | [] => ([], true)
  | f :: rest =>
    if w.copyOk (copySrcResolved previewDir f) then
      ((if w.dirExists (copyTargetFile tempDir previewDir targetDir f).dropLast then ([] : List Effect)
        else [.mkdirRec (copyTargetFile tempDir previewDir targetDir f).dropLast])
         ++ Effect.copyFile (copySrcResolved previewDir f) (copyTargetFile tempDir previewDir targetDir f)
            :: (runCopyLoop w tempDir previewDir targetDir rest).1,
       (runCopyLoop w tempDir previewDir targetDir rest).2)
    else
      (if w.dirExists (copyTargetFile tempDir previewDir targetDir f).dropLast then ([] : List Effect)
       else [.mkdirRec (copyTargetFile tempDir previewDir targetDir f).dropLast], false)

/- ## Commit, push, and final scratch removal -/

/-- The commit message of line 153. -/
def genCommitMsg (repoName : String) (prNumber : Nat) (sha : String) : String :=
  "Update preview for " ++ repoName ++ "#" ++ toString prNumber
    ++ " (" ++ substring7 sha ++ ")"

/-- The commit message of line 197. -/
def cleanupCommitMsg (repoName : String) (prNumber : Nat) : String :=
  "Remove preview for " ++ repoName ++ "#" ++ toString prNumber

/-- The try block of lines 152-162 (identical at lines 196-206): commit,
then push; if either throws, a message containing nothing to commit is
tolerated (and nothing after the throwing command runs), any other
message rethrows.  Returns the attempted effects and whether the block
completed without rethrowing. -/
def commitPushStep (w : World) (msg : String) : List Effect × Bool :=
  match w.run (.gitCommit msg) with
  | .ok =>
    match w.run .gitPush with
    | .ok => ([.exec (.gitCommit msg), .exec .gitPush], true)
    | .fail m => ([.exec (.gitCommit msg), .exec .gitPush], jsIncludes m ("nothing to commit"))
  | .fail m => ([.exec (.gitCommit msg)], jsIncludes m ("nothing to commit"))

/-- Lines 165-166 and 212-213: the final rm -rf of the scratch
directories, still inside the try block, so its own failure is caught
and turns into exit 1; on success the script reaches its end and the
process exits 0. -/
def finishStep (w : World) (scratch : List AbsPath) (tr : List Effect) : List Effect × Outcome :=
  match w.run (.rmrf scratch) with
  | .ok => (tr ++ [.exec (.rmrf scratch)], .exited 0)
  | .fail _ => (tr ++ [.exec (.rmrf scratch)], .exited 1)

/- ## The generation flow (lines 53-172) -/

/-- Steps 4-6 of handlePreviewGeneration (lines 119-166), from the
preview-repository clone onward, given the located artifact list.  Every
uncaught throw lands in the catch at line 168, which exits 1.  A missing
commit sha (head present, sha property absent) first throws at line 153,
where substring is called on undefined, after git add has run. -/
def publishTail (cfg : Config) (repoName : String) (prNumber : Nat) (commitSha : Option String)
    (tempDir previewDir : AbsPath) (w : World) (htmlFiles : List String) : List Effect × Outcome :=
  match w.run (.gitClonePreview cfg.previewOwner cfg.previewName) with
  | .fail _ => ([.exec (.gitClonePreview cfg.previewOwner cfg.previewName)], .exited 1)
  | .ok =>
    let targetDir := normJoin previewDir (splitPath (previewPathStr repoName prNumber))
    let mkt : List Effect := if w.targetDirExists then [] else [.mkdirRec targetDir]
    let pre := Effect.exec (.gitClonePreview cfg.previewOwner cfg.previewName) :: mkt
    let ces := (runCopyLoop w tempDir previewDir targetDir htmlFiles).1
    if (runCopyLoop w tempDir previewDir targetDir htmlFiles).2 = false then
      (pre ++ ces, .exited 1)
    else
      match w.run .gitConfigName with
      | .fail _ => (pre ++ ces ++ [.exec .gitConfigName], .exited 1)
      | .ok =>
      match w.run .gitConfigEmail with
      | .fail _ => (pre ++ ces ++ [.exec .gitConfigName, .exec .gitConfigEmail], .exited 1)
      | .ok =>
      match w.run (.gitAdd (previewPathStr repoName prNumber)) with
      | .fail _ =>
          (pre ++ ces ++ [.exec .gitConfigName, .exec .gitConfigEmail,
            .exec (.gitAdd (previewPathStr repoName prNumber))], .exited 1)
      | .ok =>
        let pre2 := pre ++ ces ++ [Effect.exec .gitConfigName, .exec .gitConfigEmail,
          .exec (.gitAdd (previewPathStr repoName prNumber))]
        match commitSha with
        | none => (pre2, .exited 1)
        | some sha =>
          let cp := commitPushStep w (genCommitMsg repoName prNumber sha)
          if cp.2 then finishStep w [tempDir, previewDir] (pre2 ++ cp.1)
          else (pre2 ++ cp.1, .exited 1)

/-- Steps 3 onward (lines 99-166): locate the artifacts; an empty result
exits 1 at line 116 before any preview-repository work; a located set is
handed to the publisher tail. -/
def locatePhase (cfg : Config) (repoName : String) (prNumber : Nat) (commitSha : Option String)
    (tempDir previewDir : AbsPath) (w : World) : List Effect × Outcome :=
  match locateArtifacts w.sourceTree htmlDirs with
  | .error _ => ([], .exited 1)
  | .ok htmlFiles =>
    if htmlFiles.length = 0 then ([], .exited 1)
    else publishTail cfg repoName prNumber commitSha tempDir previewDir w htmlFiles

/-- handlePreviewGeneration (lines 53-172): clone the source repository,
check out the head sha (undefined prints into the command when the sha
property is absent), run build discovery, and continue with the locate
phase unless a script-path build candidate threw. -/
def handlePreviewGeneration (cfg : Config) (repoName fullName : String) (prNumber : Nat)
    (commitSha : Option String) (w : World) : List Effect × Outcome :=
  match w.run (.gitCloneSource fullName) with
  | .fail _ => ([.exec (.gitCloneSource fullName)], .exited 1)
  | .ok =>
  match w.run (.gitCheckout (shaString commitSha)) with
  | .fail _ =>
      ([.exec (.gitCloneSource fullName), .exec (.gitCheckout (shaString commitSha))], .exited 1)
  | .ok =>
    let pre := [Effect.exec (.gitCloneSource fullName), Effect.exec (.gitCheckout (shaString commitSha))]
    let bes := (runBuildLoop w buildScripts).1
    match (runBuildLoop w buildScripts).2 with
    | .threw => (pre ++ bes, .exited 1)
    | _ =>
      let t := locatePhase cfg repoName prNumber commitSha (tempDirOf w) (previewDirOf w) w
      (pre ++ bes ++ t.1, t.2)

/- ## The cleanup flow (lines 174-219) -/

/-- handleCleanup: clone the preview repository; when the preview path
exists, delete it, configure, stage everything, commit and push with the
nothing-to-commit tolerance; when it does not exist, only log.  Either
way the scratch clone is removed last (line 213, inside the try). -/
def handleCleanup (cfg : Config) (repoName : String) (prNumber : Nat) (w : World) : List Effect × Outcome :=
  let previewDir := cleanupDirOf w
  let targetPath := normJoin previewDir (splitPath (previewPathStr repoName prNumber))
  match w.run (.gitClonePreview cfg.previewOwner cfg.previewName) with
  | .fail _ => ([.exec (.gitClonePreview cfg.previewOwner cfg.previewName)], .exited 1)
  | .ok =>
    let pre := [Effect.exec (.gitClonePreview cfg.previewOwner cfg.previewName)]
    if w.previewPathExists then
      match w.run (.rmrf [targetPath]) with
      | .fail _ => (pre ++ [.exec (.rmrf [targetPath])], .exited 1)
      | .ok =>
      match w.run .gitConfigName with
      | .fail _ => (pre ++ [.exec (.rmrf [targetPath]), .exec .gitConfigName], .exited 1)
      | .ok =>
      match w.run .gitConfigEmail with
      | .fail _ =>
          (pre ++ [.exec (.rmrf [targetPath]), .exec .gitConfigName, .exec .gitConfigEmail], .exited 1)
      | .ok =>
      match w.run .gitAddAll with
      | .fail _ =>
          (pre ++ [.exec (.rmrf [targetPath]), .exec .gitConfigName, .exec .gitConfigEmail,
            .exec .gitAddAll], .exited 1)
      | .ok =>
        let pre2 := pre ++ [Effect.exec (.rmrf [targetPath]), .exec .gitConfigName,
          .exec .gitConfigEmail, .exec .gitAddAll]
        let cp := commitPushStep w (cleanupCommitMsg repoName prNumber)
        if cp.2 then finishStep w [previewDir] (pre2 ++ cp.1)
        else (pre2 ++ cp.1, .exited 1)
    else finishStep w [previewDir] pre

/- ## The top level (lines 13-51) -/

/-- The whole script: destructure the payload; exit 1 when action (also
when it is the empty string, which is falsy), repository, or
pull_request is missing (line 21); read pull_request.head.sha, an
uncaught TypeError when head is absent (line 28); exit 0 for an
unmonitored repository (line 36); route opened and synchronize to the
generation flow, closed and merged to the cleanup flow, anything else to
a logged exit 0 (lines 44-51). -/
def runProgram (cfg : Config) (ev : EventPayload) (w : World) : List Effect × Outcome :=
  match ev.action, ev.repository, ev.pull_request with
  | some act, some repo, some pr =>
    if act = "" then ([], .exited 1)
    else
      match pr.head with
      | none => ([], .thrown)
      | some h =>
        if cfg.monitoredRepositories.contains repo.name then
          if act == "opened" || act == "synchronize" then
            handlePreviewGeneration cfg repo.name repo.full_name pr.number h.sha w
          else if act == "closed" || act == "merged" then
            handleCleanup cfg repo.name pr.number w
          else ([], .exited 0)
        else ([], .exited 0)
  | _, _, _ => ([], .exited 1)

/- ## Effect classification -/

/-- Effects that belong to the publish stage: preview-repository clone,
directory creation, file copies, git configuration, staging, commit and
push.  Source clone, checkout, build attempts and scratch removal are
not publish effects. -/
def isPublishEffect : Effect → Bool
  | .exec (.gitClonePreview _ _) => true
  | .exec .gitConfigName => true
  | .exec .gitConfigEmail => true
  | .exec (.gitAdd _) => true
  | .exec .gitAddAll => true
  | .exec (.gitCommit _) => true
  | .exec .gitPush => true
  | .mkdirRec _ => true
  | .copyFile _ _ => true
  | _ => false

/-- Effects that remove directories (rm -rf call sites). -/
def isRmEffect : Effect → Bool
  | .exec (.rmrf _) => true
  | _ => false

/- ## Concrete fixtures for witnesses and counterexamples -/

def cfgEx : Config :=
  { monitoredRepositories := ["docs-site"], previewOwner := "org", previewName := "previews" }

/-- A world in which every external command succeeds, no build script
file exists (so the first command-style strategy runs and succeeds), and
the source tree holds dist/index.html. -/
def okWorld : World := {
  run := fun _ => .ok,
  scriptExists := fun _ => false,
  sourceTree := entryList [Entry.dir ("dist") (entryList [Entry.file ("index.html")])],
  targetDirExists := false,
  dirExists := fun _ => false,
  copyOk := fun _ => true,
  previewPathExists := true,
  tmpId := "100", previewId := "200", cleanupId := "300" }

def evEx : EventPayload := {
  action := some "opened",
  repository := some { name := "docs-site", full_name := "org/docs-site", owner := { login := "org" } },
  pull_request := some { number := 42, head := some { sha := some "abc1234def" } } }

/-- Like okWorld, except that the script build-docs.sh exists in the
working tree and fails when executed; every other command succeeds. -/
def wC1 : World := { okWorld with
  run := fun c => match c with
    | Cmd.build s => if s == "build-docs.sh" then CmdResult.fail "exit 2" else CmdResult.ok
    | _ => CmdResult.ok,
  scriptExists := fun s => s == "build-docs.sh" }

/-- A world with no build script file, every build command failing, and
a source tree containing no html file at all. -/
def wC9 : World := { okWorld with
  run := fun c => match c with
    | Cmd.build _ => CmdResult.fail "exit 2"
    | _ => CmdResult.ok,
  sourceTree := entryList [Entry.dir ("src") (entryList [Entry.file ("main.js")])] }

/-- A world with no build script file and every build command failing,
but whose source tree does hold html output. -/
def wExh : World := { okWorld with
  run := fun c => match c with
    | Cmd.build _ => CmdResult.fail "exit 2"
    | _ => CmdResult.ok }

/-- A world in which git commit fails with the benign message and every
other command succeeds. -/
def wNTC : World := { okWorld with
  run := fun c => match c with
    | Cmd.gitCommit _ => CmdResult.fail "Command failed: nothing to commit, working tree clean"
    | _ => CmdResult.ok }

/-- okWorld, with the preview path absent from the preview clone. -/
def wC8 : World := { okWorld with previewPathExists := false }

/-- An event whose repository is not monitored. -/
def evC6 : EventPayload := {
  action := some "opened",
  repository := some { name := "random-repo", full_name := "org/random-repo", owner := { login := "org" } },
  pull_request := some { number := 7, head := some { sha := some "fff1234" } } }

/-- An event missing pull_request. -/
def evC7 : EventPayload := {
  action := some "opened",
  repository := some { name := "docs-site", full_name := "org/docs-site", owner := { login := "org" } },
  pull_request := none }

/-- Closed action, unmonitored repository, head object present but with
no sha property. -/
def evC10 : EventPayload := {
  action := some "closed",
  repository := some { name := "random-repo", full_name := "org/random-repo", owner := { login := "org" } },
  pull_request := some { number := 7, head := some { sha := none } } }

/-- Closed action, head object absent altogether. -/
def evC10b : EventPayload := {
  action := some "closed",
  repository := some { name := "random-repo", full_name := "org/random-repo", owner := { login := "org" } },
  pull_request := some { number := 7, head := none } }

/-- A source tree realising the spec example: first candidate empty,
second with three html files, third with five. -/
def exTree : EntryList := entryList
  [Entry.dir ("dist") (entryList []),
   Entry.dir ("output") (entryList
     [Entry.file ("a.html"), Entry.file ("b.html"), Entry.file ("c.html")]),
   Entry.dir ("docs") (entryList [Entry.dir ("html") (entryList
     [Entry.file ("1.html"), Entry.file ("2.html"), Entry.file ("3.html"),
      Entry.file ("4.html"), Entry.file ("5.html")])])]

/- ## Helper lemmas -/

/-- Every effect the build loop emits is a build-command attempt. -/
theorem runBuildLoop_effects (w : World) :
    ∀ (L : List String) (e : Effect), e ∈ (runBuildLoop w L).1 →
      ∃ s, e = Effect.exec (Cmd.build s) := by
  intro L
  induction L with
  | nil => intro e he; simp [runBuildLoop] at he
  | cons s rest ih =>
    intro e he
    unfold runBuildLoop at he
    split at he
    · split at he
      · simp at he; exact ⟨s, he⟩
      · simp at he
        rcases he with he | he
        · exact ⟨s, he⟩
        · exact ih e he
    · split at he
      · split at he <;> simp at he <;> exact ⟨s, he⟩
      · exact ih e he

/-- Every effect the copy loop emits is a directory creation or a file
copy. -/
theorem runCopyLoop_effects (w : World) (a b c : AbsPath) :
    ∀ (L : List String) (e : Effect), e ∈ (runCopyLoop w a b c L).1 →
      (∃ p, e = Effect.mkdirRec p) ∨ ∃ x y, e = Effect.copyFile x y := by
  intro L
  induction L with
  | nil => intro e he; simp [runCopyLoop] at he
  | cons f rest ih =>
    intro e he
    unfold runCopyLoop at he
    split at he <;> split at he <;> simp at he
    · rcases he with he | he
      · exact Or.inr ⟨_, _, he⟩
      · exact ih e he
    · rcases he with he | he | he
      · exact Or.inl ⟨_, he⟩
      · exact Or.inr ⟨_, _, he⟩
      · exact ih e he
    · exact Or.inl ⟨_, he⟩

/-- If a leading run of candidates locates nothing, the scan continues
exactly as it would on the remaining candidates. -/
theorem locateArtifacts_append (tree : EntryList) (pre rest : List String)
    (h : locateArtifacts tree pre = Except.ok []) :
    locateArtifacts tree (pre ++ rest) = locateArtifacts tree rest := by
  induction pre with
  | nil => simp
  | cons d ds ih =>
    simp only [List.cons_append]
    simp only [locateArtifacts] at h ⊢
    cases hl : lookupPath (splitPath d) tree <;> rw [hl] at h <;> dsimp only at h ⊢
    · exact ih h
    · simp at h
    · rename_i es
      by_cases hemp : (findHtmlFiles d es).length > 0
      · rw [if_pos hemp] at h
        rw [Except.ok.injEq] at h
        rw [h] at hemp
        simp at hemp
      · rw [if_neg hemp] at h ⊢
        exact ih h

/-- The publisher tail reaches exit 0 only through the final scratch
removal, so a successful tail carries the rm effect for both scratch
directories. -/
theorem publishTail_exit_zero_rm (cfg : Config) (rn : String) (pn : Nat) (sha : Option String)
    (tempDir previewDir : AbsPath) (w : World) (files : List String) :
    (publishTail cfg rn pn sha tempDir previewDir w files).2 = Outcome.exited 0 →
    Effect.exec (Cmd.rmrf [tempDir, previewDir]) ∈ (publishTail cfg rn pn sha tempDir previewDir w files).1 := by
  simp only [publishTail, finishStep]
  repeat' split
  all_goals intro h
  all_goals simp_all

/-- The cleanup flow reaches exit 0 only through the final scratch
removal. -/
theorem handleCleanup_exit_zero_rm (cfg : Config) (rn : String) (pn : Nat) (w : World) :
    (handleCleanup cfg rn pn w).2 = Outcome.exited 0 →
    Effect.exec (Cmd.rmrf [cleanupDirOf w]) ∈ (handleCleanup cfg rn pn w).1 := by
  simp only [handleCleanup, finishStep]
  repeat' split
  all_goals intro h
  all_goals simp_all

/-- The generation flow reaches exit 0 only through the publisher tail,
so a successful run carries the scratch removal. -/
theorem handlePreviewGeneration_exit_zero_rm (cfg : Config) (rn fn : String) (pn : Nat)
    (sha : Option String) (w : World) :
    (handlePreviewGeneration cfg rn fn pn sha w).2 = Outcome.exited 0 →
    Effect.exec (Cmd.rmrf [tempDirOf w, previewDirOf w]) ∈ (handlePreviewGeneration cfg rn fn pn sha w).1 := by
  simp only [handlePreviewGeneration, locatePhase]
  repeat' split
  all_goals intro h
  all_goals try simp_all
  all_goals
    exact Or.inr (publishTail_exit_zero_rm cfg rn pn sha (tempDirOf w) (previewDirOf w) w _ h)

/- ## Claims -/

/-- Claim C1, counterexample.  The claim says Build Discovery recovers
locally from every failing candidate and never terminates the whole flow
with a failure.  In the world wC1 the script-path candidate
build-docs.sh exists in the working tree and its execution fails, while
every other external command succeeds and the source tree even holds
html output; yet the run stops at that build attempt and the process
exits 1: the failure of a script-path candidate is not caught
per-candidate (handler.js line 89 sits outside any try), it escapes to
the catch at line 168. -/
theorem C1_counterexample :
    runProgram cfgEx evEx wC1 =
      ([Effect.exec (Cmd.gitCloneSource "org/docs-site"),
        Effect.exec (Cmd.gitCheckout "abc1234def"),
        Effect.exec (Cmd.build "build-docs.sh")], Outcome.exited 1) := by decide

/-- Claim C1, amended: a command-style candidate (one containing npm run
or python) that fails is recovered locally, the loop moving on to the
next candidate; a script-path candidate that exists and fails terminates
the flow with exit 1; and when every candidate is exhausted without an
executed build, the generation flow still proceeds to the Artifact
Locator. -/
theorem C1_amended :
    (∀ (w : World) (s : String) (rest : List String) (m : String),
      stratIsCmd s = true → w.run (.build s) = .fail m →
      (runBuildLoop w (s :: rest)).2 = (runBuildLoop w rest).2)
    ∧ (∀ (w : World) (s : String) (rest : List String) (m : String),
      stratIsCmd s = false → w.scriptExists s = true → w.run (.build s) = .fail m →
      (runBuildLoop w (s :: rest)).2 = BuildRes.threw)
    ∧ (∀ (cfg : Config) (rn fn : String) (pn : Nat) (sha : Option String) (w : World),
      w.run (.gitCloneSource fn) = .ok →
      w.run (.gitCheckout (shaString sha)) = .ok →
      (runBuildLoop w buildScripts).2 = BuildRes.exhausted →
      handlePreviewGeneration cfg rn fn pn sha w =
        ([Effect.exec (.gitCloneSource fn), Effect.exec (.gitCheckout (shaString sha))]
           ++ (runBuildLoop w buildScripts).1
           ++ (locatePhase cfg rn pn sha (tempDirOf w) (previewDirOf w) w).1,
         (locatePhase cfg rn pn sha (tempDirOf w) (previewDirOf w) w).2)) := by
  refine ⟨?_, ?_, ?_⟩
  · intro w s rest m h1 h2
    simp [runBuildLoop, h1, h2]
  · intro w s rest m h1 h2 h3
    simp [runBuildLoop, h1, h2, h3]
  · intro cfg rn fn pn sha w h1 h2 h3
    simp [handlePreviewGeneration, h1, h2, h3]

/-- Witness for the amended C1, at concrete worlds: a failing
command-style candidate leaves the loop verdict unchanged, a failing
existing script-path candidate yields the thrown verdict, and a world
where every command-style candidate fails and no script file exists
reaches the locate phase. -/
theorem C1_amended_witness :
    (runBuildLoop wC9 ["npm run build-docs"]).2 = (runBuildLoop wC9 []).2
    ∧ (runBuildLoop wC1 ["build-docs.sh"]).2 = BuildRes.threw
    ∧ handlePreviewGeneration cfgEx "docs-site" "org/docs-site" 42 (some "abc1234def") wExh =
        ([Effect.exec (Cmd.gitCloneSource "org/docs-site"),
          Effect.exec (Cmd.gitCheckout "abc1234def")]
           ++ (runBuildLoop wExh buildScripts).1
           ++ (locatePhase cfgEx "docs-site" 42 (some "abc1234def") (tempDirOf wExh) (previewDirOf wExh) wExh).1,
         (locatePhase cfgEx "docs-site" 42 (some "abc1234def") (tempDirOf wExh) (previewDirOf wExh) wExh).2) :=
  ⟨C1_amended.1 wC9 "npm run build-docs" [] "exit 2" (by decide) (by decide),
   C1_amended.2.1 wC1 "build-docs.sh" [] "exit 2" (by decide) (by decide) (by decide),
   C1_amended.2.2 cfgEx "docs-site" "org/docs-site" 42 (some "abc1234def") wExh
     (by decide) (by decide) (by decide)⟩

/-- Claim C2.  The specification says each artifact is placed at
PreviewPath followed by its path relative to the source working-tree
root.  The code computes something else: the artifact strings are
relative paths collected while the current directory was the source
working tree, but line 123 changes the current directory to the preview
working tree before the copy loop, so line 134 resolves them against the
wrong root.  Concretely, for the artifact dist/index.html with source
tree tmp/preview-100 and preview tree tmp/preview-repo-200 and
PreviewPath docs-site/42: the resolved copy source is
tmp/preview-repo-200/dist/index.html, which is inside the preview clone
rather than the source tree where the artifact lives, and the computed
target is tmp/preview-repo-200/docs-site/preview-repo-200/dist/index.html
instead of the mirrored tmp/preview-repo-200/docs-site/42/dist/index.html.
The code contradicts its own comment at line 132 (copy files maintaining
directory structure); the spec states the evident intent, so this is a
code bug. -/
theorem C2_code_bug_eval :
    copySrcResolved ["tmp", "preview-repo-200"] "dist/index.html"
        = ["tmp", "preview-repo-200", "dist", "index.html"]
    ∧ copySrcResolved ["tmp", "preview-repo-200"] "dist/index.html"
        ≠ ["tmp", "preview-100", "dist", "index.html"]
    ∧ copyTargetFile ["tmp", "preview-100"] ["tmp", "preview-repo-200"]
        (normJoin ["tmp", "preview-repo-200"] (splitPath (previewPathStr "docs-site" 42)))
        "dist/index.html"
        = ["tmp", "preview-repo-200", "docs-site", "preview-repo-200", "dist", "index.html"]
    ∧ copyTargetFile ["tmp", "preview-100"] ["tmp", "preview-repo-200"]
        (normJoin ["tmp", "preview-repo-200"] (splitPath (previewPathStr "docs-site" 42)))
        "dist/index.html"
        ≠ specTargetFile ["tmp", "preview-repo-200"]
            (splitPath (previewPathStr "docs-site" 42)) (splitPath "dist/index.html") := by
  refine ⟨by decide, by decide, by decide, by decide⟩

/-- Claim C3: when the commit step fails with a message containing
nothing to commit, the try handler of lines 152-162 (and identically
lines 196-206) treats the run as success: the push command is never
attempted (execSync throws before reaching it) and the flow continues to
its normal end, exiting 0.  Stated for the shared commit-push step, for
the Publisher tail, and for the Remover flow; the flow-level parts
assume the surrounding steps succeed, which is what reaching the commit
step means. -/
theorem C3_nothing_to_commit :
    (∀ (w : World) (msg m : String),
      w.run (.gitCommit msg) = .fail m → jsIncludes m ("nothing to commit") = true →
      commitPushStep w msg = ([Effect.exec (.gitCommit msg)], true))
    ∧ (∀ (cfg : Config) (rn : String) (pn : Nat) (sha : String)
        (tempDir previewDir : AbsPath) (w : World) (files : List String) (m : String),
      w.run (.gitClonePreview cfg.previewOwner cfg.previewName) = .ok →
      (runCopyLoop w tempDir previewDir
        (normJoin previewDir (splitPath (previewPathStr rn pn))) files).2 = true →
      w.run .gitConfigName = .ok → w.run .gitConfigEmail = .ok →
      w.run (.gitAdd (previewPathStr rn pn)) = .ok →
      w.run (.gitCommit (genCommitMsg rn pn sha)) = .fail m →
      jsIncludes m ("nothing to commit") = true →
      w.run (.rmrf [tempDir, previewDir]) = .ok →
      (publishTail cfg rn pn (some sha) tempDir previewDir w files).2 = Outcome.exited 0
        ∧ Effect.exec Cmd.gitPush ∉ (publishTail cfg rn pn (some sha) tempDir previewDir w files).1)
    ∧ (∀ (cfg : Config) (rn : String) (pn : Nat) (w : World) (m : String),
      w.run (.gitClonePreview cfg.previewOwner cfg.previewName) = .ok →
      w.previewPathExists = true →
      w.run (.rmrf [normJoin (cleanupDirOf w) (splitPath (previewPathStr rn pn))]) = .ok →
      w.run .gitConfigName = .ok → w.run .gitConfigEmail = .ok → w.run .gitAddAll = .ok →
      w.run (.gitCommit (cleanupCommitMsg rn pn)) = .fail m →
      jsIncludes m ("nothing to commit") = true →
      w.run (.rmrf [cleanupDirOf w]) = .ok →
      (handleCleanup cfg rn pn w).2 = Outcome.exited 0
        ∧ Effect.exec Cmd.gitPush ∉ (handleCleanup cfg rn pn w).1) := by
  have part1 : ∀ (w : World) (msg m : String),
      w.run (.gitCommit msg) = .fail m → jsIncludes m ("nothing to commit") = true →
      commitPushStep w msg = ([Effect.exec (.gitCommit msg)], true) := by
    intro w msg m h1 h2
    simp [commitPushStep, h1, h2]
  refine ⟨part1, ?_, ?_⟩
  · intro cfg rn pn sha tempDir previewDir w files m h1 hcopy h3 h4 h5 h6 h7 h8
    have hcp := part1 w (genCommitMsg rn pn sha) m h6 h7
    have hnotces : Effect.exec Cmd.gitPush ∉ (runCopyLoop w tempDir previewDir
        (normJoin previewDir (splitPath (previewPathStr rn pn))) files).1 := by
      intro hc
      rcases runCopyLoop_effects w tempDir previewDir _ files _ hc with ⟨p, hp⟩ | ⟨x, y, hp⟩ <;>
        simp at hp
    constructor
    · simp [publishTail, finishStep, h1, h3, h4, h5, hcp, h8, hcopy]
    · by_cases ht : w.targetDirExists = true <;>
        simp [publishTail, finishStep, h1, h3, h4, h5, hcp, h8, hcopy, ht, hnotces]
  · intro cfg rn pn w m h1 h2 h3 h4 h5 h6 h7 h8 h9
    have hcp := part1 w (cleanupCommitMsg rn pn) m h7 h8
    constructor
    · simp [handleCleanup, finishStep, h1, h2, h3, h4, h5, h6, hcp, h9]
    · simp [handleCleanup, finishStep, h1, h2, h3, h4, h5, h6, hcp, h9]

/-- Witness for C3, in the world wNTC where git commit fails with the
benign message and every other command succeeds. -/
theorem C3_witness :
    commitPushStep wNTC "m" = ([Effect.exec (Cmd.gitCommit "m")], true)
    ∧ ((publishTail cfgEx "docs-site" 42 (some "abc1234def")
          ["tmp", "preview-100"] ["tmp", "preview-repo-200"] wNTC ["dist/index.html"]).2
            = Outcome.exited 0
        ∧ Effect.exec Cmd.gitPush ∉ (publishTail cfgEx "docs-site" 42 (some "abc1234def")
            ["tmp", "preview-100"] ["tmp", "preview-repo-200"] wNTC ["dist/index.html"]).1)
    ∧ ((handleCleanup cfgEx "docs-site" 42 wNTC).2 = Outcome.exited 0
        ∧ Effect.exec Cmd.gitPush ∉ (handleCleanup cfgEx "docs-site" 42 wNTC).1) :=
  ⟨C3_nothing_to_commit.1 wNTC "m" "Command failed: nothing to commit, working tree clean"
      rfl (by decide),
   C3_nothing_to_commit.2.1 cfgEx "docs-site" 42 "abc1234def"
      ["tmp", "preview-100"] ["tmp", "preview-repo-200"] wNTC ["dist/index.html"]
      "Command failed: nothing to commit, working tree clean"
      rfl (by decide) rfl rfl rfl rfl (by decide) rfl,
   C3_nothing_to_commit.2.2 cfgEx "docs-site" 42 wNTC
      "Command failed: nothing to commit, working tree clean"
      rfl rfl rfl rfl rfl rfl rfl (by decide) rfl⟩

/-- Claim C4: the Artifact Locator is first-match-wins.  If the leading
candidates locate nothing (they are absent or their walk yields no html
file) and the candidate d exists as a directory whose walk yields at
least one file, the scan result is exactly the file set of d, whatever
candidates follow. -/
theorem C4_first_match (tree : EntryList) (pre : List String) (d : String)
    (post : List String) (es : EntryList)
    (hpre : locateArtifacts tree pre = Except.ok [])
    (hd : lookupPath (splitPath d) tree = LookupRes.isDir es)
    (hne : (findHtmlFiles d es).length > 0) :
    locateArtifacts tree (pre ++ d :: post) = Except.ok (findHtmlFiles d es) := by
  rw [locateArtifacts_append tree pre _ hpre]
  simp only [locateArtifacts]
  rw [hd]
  dsimp only
  rw [if_pos hne]

/-- Witness for C4, realising the spec example: candidate dist is an
empty directory, output holds three html files, docs/html holds five;
the result is exactly the three files of output. -/
theorem C4_witness :
    locateArtifacts exTree htmlDirs
      = Except.ok (findHtmlFiles "output"
          (entryList [Entry.file ("a.html"), Entry.file ("b.html"), Entry.file ("c.html")]))
    ∧ findHtmlFiles "output"
        (entryList [Entry.file ("a.html"), Entry.file ("b.html"), Entry.file ("c.html")])
        = ["output/a.html", "output/b.html", "output/c.html"] :=
  ⟨C4_first_match exTree ["dist"] "output" ["docs/html", "build", "html", "."]
      (entryList [Entry.file ("a.html"), Entry.file ("b.html"), Entry.file ("c.html")])
      rfl rfl (by decide),
   rfl⟩

/-- Claim C5: when no candidate directory yields any markup file, the
generation flow exits 1 at line 116, and its effect trace contains no
publish effect at all: no preview-repository clone, no directory
creation or copy, no git configuration, staging, commit, or push. -/
theorem C5_artifacts_not_found (cfg : Config) (rn fn : String) (pn : Nat)
    (sha : Option String) (w : World)
    (h1 : w.run (.gitCloneSource fn) = .ok)
    (h2 : w.run (.gitCheckout (shaString sha)) = .ok)
    (hb : (runBuildLoop w buildScripts).2 ≠ BuildRes.threw)
    (hloc : locateArtifacts w.sourceTree htmlDirs = Except.ok []) :
    (handlePreviewGeneration cfg rn fn pn sha w).2 = Outcome.exited 1
    ∧ ∀ e ∈ (handlePreviewGeneration cfg rn fn pn sha w).1, isPublishEffect e = false := by
  have heq : handlePreviewGeneration cfg rn fn pn sha w =
      ([Effect.exec (.gitCloneSource fn), Effect.exec (.gitCheckout (shaString sha))]
        ++ (runBuildLoop w buildScripts).1, Outcome.exited 1) := by
    cases hbr : (runBuildLoop w buildScripts).2 with
    | threw => exact absurd hbr hb
    | executed => simp [handlePreviewGeneration, locatePhase, h1, h2, hbr, hloc]
    | exhausted => simp [handlePreviewGeneration, locatePhase, h1, h2, hbr, hloc]
  rw [heq]
  refine ⟨rfl, ?_⟩
  intro e he
  simp only [List.mem_append, List.mem_cons, List.not_mem_nil, or_false] at he
  rcases he with (he | he) | he
  · rw [he]; rfl
  · rw [he]; rfl
  · rcases runBuildLoop_effects w buildScripts e he with ⟨s, hs⟩
    rw [hs]; rfl

/-- Witness for C5, in the world wC9: every build command fails, no
script file exists, and the source tree holds no html file; the run
exits 1 with only the source clone, the checkout and the build attempts
in its trace. -/
theorem C5_witness :
    (handlePreviewGeneration cfgEx "docs-site" "org/docs-site" 42 (some "abc1234def") wC9).2 = Outcome.exited 1
    ∧ ∀ e ∈ (handlePreviewGeneration cfgEx "docs-site" "org/docs-site" 42 (some "abc1234def") wC9).1,
        isPublishEffect e = false :=
  C5_artifacts_not_found cfgEx "docs-site" "org/docs-site" 42 (some "abc1234def") wC9
    (by decide) (by decide) (by decide) rfl

/-- Claim C6: a structurally valid event (action nonempty, repository,
pull_request and its head object present) whose repository name is not
in the monitored list makes the program log and exit 0 with an empty
effect trace: no clone, no build, no publish, no cleanup, whatever the
world would have answered. -/
theorem C6_unmonitored_skip (cfg : Config) (ev : EventPayload) (w : World)
    (act : String) (repo : Repository) (pr : PullRequest) (hd : Head)
    (ha : ev.action = some act) (hnz : act ≠ "")
    (hr : ev.repository = some repo) (hp : ev.pull_request = some pr)
    (hh : pr.head = some hd)
    (hm : cfg.monitoredRepositories.contains repo.name = false) :
    runProgram cfg ev w = ([], Outcome.exited 0) := by
  unfold runProgram
  rw [ha, hr, hp]
  have hm2 : repo.name ∉ cfg.monitoredRepositories := by simpa using hm
  simp [hnz, hh, hm2]

/-- Witness for C6: an opened event for random-repo, which is not in the
monitored list of cfgEx, exits 0 with an empty trace. -/
theorem C6_witness : runProgram cfgEx evC6 okWorld = ([], Outcome.exited 0) :=
  C6_unmonitored_skip cfgEx evC6 okWorld "opened"
    { name := "random-repo", full_name := "org/random-repo", owner := { login := "org" } }
    { number := 7, head := some { sha := some "fff1234" } }
    { sha := some "fff1234" }
    rfl (by decide) rfl rfl rfl (by decide)

/-- Claim C7: an event missing action, repository, or pull_request makes
the validation at line 21 log to the error stream and exit 1, with an
empty effect trace: no clone, no build, no commit, no push. -/
theorem C7_malformed_event (cfg : Config) (ev : EventPayload) (w : World)
    (h : ev.action = none ∨ ev.repository = none ∨ ev.pull_request = none) :
    runProgram cfg ev w = ([], Outcome.exited 1) := by
  obtain ⟨a, r, p⟩ := ev
  cases a <;> cases r <;> cases p <;> simp_all [runProgram]

/-- Witness for C7: an event with no pull_request field exits 1 with an
empty trace. -/
theorem C7_witness : runProgram cfgEx evC7 okWorld = ([], Outcome.exited 1) :=
  C7_malformed_event cfgEx evC7 okWorld (Or.inr (Or.inr rfl))

/-- Claim C8: a cleanup run in which the preview path does not exist in
the cloned preview repository is a no-op success: the trace holds
exactly the preview clone and the final scratch removal (no deletion of
the preview path, no git config, add, commit, or push) and the process
exits 0. -/
theorem C8_cleanup_noop (cfg : Config) (rn : String) (pn : Nat) (w : World)
    (hclone : w.run (.gitClonePreview cfg.previewOwner cfg.previewName) = .ok)
    (hpe : w.previewPathExists = false)
    (hrm : w.run (.rmrf [cleanupDirOf w]) = .ok) :
    handleCleanup cfg rn pn w =
      ([Effect.exec (Cmd.gitClonePreview cfg.previewOwner cfg.previewName),
        Effect.exec (Cmd.rmrf [cleanupDirOf w])], Outcome.exited 0) := by
  simp [handleCleanup, finishStep, hclone, hpe, hrm]

/-- Witness for C8, in the world wC8 where every command succeeds and
the preview path is absent. -/
theorem C8_witness :
    handleCleanup cfgEx "docs-site" 42 wC8 =
      ([Effect.exec (Cmd.gitClonePreview cfgEx.previewOwner cfgEx.previewName),
        Effect.exec (Cmd.rmrf [cleanupDirOf wC8])], Outcome.exited 0) :=
  C8_cleanup_noop cfgEx "docs-site" 42 wC8 rfl rfl rfl

/-- Claim C9, counterexample.  The claim says the scratch directories
are removed on the failure path as well as on success.  In the world wC9
the source clone succeeds (so the source scratch directory exists), no
build candidate succeeds, no html file is found, and the run exits 1
with no rm effect anywhere in its trace: the rm -rf of line 166 lies
inside the try block before the catch, so no failure path reaches it. -/
theorem C9_counterexample :
    (runProgram cfgEx evEx wC9).2 = Outcome.exited 1
    ∧ Effect.exec (Cmd.gitCloneSource "org/docs-site") ∈ (runProgram cfgEx evEx wC9).1
    ∧ ∀ e ∈ (runProgram cfgEx evEx wC9).1, isRmEffect e = false := by decide

/-- Claim C9, amended: the scratch directories are removed (as the last
step) whenever a flow ends with exit 0; on failure paths the removal
does not happen — in particular an artifacts-not-found run leaves both
scratch directories behind, its trace containing no rm effect. -/
theorem C9_amended :
    (∀ (cfg : Config) (rn fn : String) (pn : Nat) (sha : Option String) (w : World),
      (handlePreviewGeneration cfg rn fn pn sha w).2 = Outcome.exited 0 →
      Effect.exec (Cmd.rmrf [tempDirOf w, previewDirOf w]) ∈ (handlePreviewGeneration cfg rn fn pn sha w).1)
    ∧ (∀ (cfg : Config) (rn : String) (pn : Nat) (w : World),
      (handleCleanup cfg rn pn w).2 = Outcome.exited 0 →
      Effect.exec (Cmd.rmrf [cleanupDirOf w]) ∈ (handleCleanup cfg rn pn w).1)
    ∧ (∀ (cfg : Config) (rn fn : String) (pn : Nat) (sha : Option String) (w : World),
      w.run (.gitCloneSource fn) = .ok →
      w.run (.gitCheckout (shaString sha)) = .ok →
      (runBuildLoop w buildScripts).2 ≠ BuildRes.threw →
      locateArtifacts w.sourceTree htmlDirs = Except.ok [] →
      ∀ e ∈ (handlePreviewGeneration cfg rn fn pn sha w).1, isRmEffect e = false) := by
  refine ⟨handlePreviewGeneration_exit_zero_rm, handleCleanup_exit_zero_rm, ?_⟩
  intro cfg rn fn pn sha w h1 h2 hb hloc
  have heq : handlePreviewGeneration cfg rn fn pn sha w =
      ([Effect.exec (.gitCloneSource fn), Effect.exec (.gitCheckout (shaString sha))]
        ++ (runBuildLoop w buildScripts).1, Outcome.exited 1) := by
    cases hbr : (runBuildLoop w buildScripts).2 with
    | threw => exact absurd hbr hb
    | executed => simp [handlePreviewGeneration, locatePhase, h1, h2, hbr, hloc]
    | exhausted => simp [handlePreviewGeneration, locatePhase, h1, h2, hbr, hloc]
  rw [heq]
  intro e he
  simp only [List.mem_append, List.mem_cons, List.not_mem_nil, or_false] at he
  rcases he with (he | he) | he
  · rw [he]; rfl
  · rw [he]; rfl
  · rcases runBuildLoop_effects w buildScripts e he with ⟨s, hs⟩
    rw [hs]; rfl

/-- Witness for the amended C9: a fully successful generation run and a
no-op cleanup run both end with the scratch removal in their traces, and
the artifacts-not-found world wC9 runs without any rm effect. -/
theorem C9_witness :
    Effect.exec (Cmd.rmrf [tempDirOf okWorld, previewDirOf okWorld])
        ∈ (handlePreviewGeneration cfgEx "docs-site" "org/docs-site" 42 (some "abc1234def") okWorld).1
    ∧ Effect.exec (Cmd.rmrf [cleanupDirOf wC8]) ∈ (handleCleanup cfgEx "docs-site" 42 wC8).1
    ∧ ∀ e ∈ (handlePreviewGeneration cfgEx "docs-site" "org/docs-site" 42 (some "abc1234def") wC9).1,
        isRmEffect e = false :=
  ⟨C9_amended.1 cfgEx "docs-site" "org/docs-site" 42 (some "abc1234def") okWorld (by decide),
   C9_amended.2.1 cfgEx "docs-site" 42 wC8 (by decide),
   C9_amended.2.2 cfgEx "docs-site" "org/docs-site" 42 (some "abc1234def") wC9
     (by decide) (by decide) (by decide) rfl⟩

/-- Claim C10, counterexample.  The claim says that whenever
pull_request.head or pull_request.head.sha is missing, the program
throws while reading the sha, before the repository filter and the
router, and exits non-zero even for closed actions and unmonitored
repositories.  But when the head object is present and only its sha
property is missing, the JS property read yields undefined without
throwing: for the closed event evC10 on the unmonitored random-repo the
program runs the filter normally and exits 0 with an empty trace —
not a throw, not a non-zero exit. -/
theorem C10_counterexample :
    runProgram cfgEx evC10 okWorld = ([], Outcome.exited 0) := by decide

/-- Claim C10, amended: only a missing head object makes line 28 throw.
For every event whose action, repository and pull_request are present
(action nonempty) and whose pull_request.head is absent, the program
throws before the repository filter and the router run, terminating with
a non-zero exit code and an empty effect trace, whatever the action and
whether or not the repository is monitored.  When head is present with
its sha property missing, the read yields undefined without throwing and
the filter and router run normally (the undefined sha only matters later
inside the generation flow). -/
theorem C10_amended (cfg : Config) (ev : EventPayload) (w : World)
    (act : String) (repo : Repository) (pr : PullRequest)
    (ha : ev.action = some act) (hnz : act ≠ "")
    (hr : ev.repository = some repo) (hp : ev.pull_request = some pr)
    (hh : pr.head = none) :
    runProgram cfg ev w = ([], Outcome.thrown) ∧ Outcome.thrown.exitCode ≠ 0 := by
  refine ⟨?_, by decide⟩
  unfold runProgram
  rw [ha, hr, hp]
  simp [hnz, hh]

/-- Witness for the amended C10: a closed event for the unmonitored
random-repo with no head object throws with exit code 1. -/
theorem C10_witness :
    runProgram cfgEx evC10b okWorld = ([], Outcome.thrown)
    ∧ Outcome.thrown.exitCode ≠ 0 :=
  C10_amended cfgEx evC10b okWorld "closed"
    { name := "random-repo", full_name := "org/random-repo", owner := { login := "org" } }
    { number := 7, head := none }
    rfl (by decide) rfl rfl rfl

end PreviewBot
